import Mathlib

set_option maxRecDepth 4000000

/-!
Verification of the confidential-commitment token (con_privacy_token.py and
client_helper.py) against its natural-language specification.

Shallow embedding conventions:
* Python arbitrary-precision integers are modelled as Lean Int (or Nat where the
  source value is provably non-negative); Python `x % m` for a positive modulus
  is Int.emod / Nat.mod.
* The host hash `hashlib.sha3` is supplied by the execution environment and is
  not part of the repository; functions that consume a hash digest take the
  digest's integer value as an explicit argument, so every theorem quantifies
  over all possible digests.
* `total_supply` (a Python float) is modelled as Rat; every amount exercised by
  the claims (0.0, 10.5) is exactly representable in binary floating point, so
  the rational model agrees with IEEE semantics on those values.
* Contract entry points are functions from a pre-state to
  Except String ContractState; the host runs each call transactionally and
  rolls the state back when an assert fires, which `applyOp` makes explicit.
-/

namespace Token

/-- Modulus for modular arithmetic, `p = 2^255 - 19` (a large prime). -/
def p : ℕ := 2 ^ 255 - 19

/-- Loop body of `mod_exp` (square-and-multiply from con_privacy_token.py).
The first argument is fuel bounding the number of iterations; the exponent at
least halves each pass, so taking the initial exponent itself as fuel is always
sufficient, and keeps the recursion structural so the kernel can evaluate it. -/
def mod_exp_go : ℕ → ℕ → ℕ → ℕ → ℕ → ℕ
  | 0, result, _, _, _ => result
  | fuel + 1, result, base, exponent, modulus =>
    if exponent = 0 then result
    else
      mod_exp_go fuel (if exponent % 2 = 1 then result * base % modulus else result)
        (base * base % modulus) (exponent / 2) modulus

/-- `mod_exp(base, exponent, modulus)` from con_privacy_token.py: returns 1 when
`exponent = 0`, otherwise runs the square-and-multiply loop starting from
`result = 1` and `base % modulus`. -/
def mod_exp (base exponent modulus : ℕ) : ℕ :=
  if exponent = 0 then 1 else mod_exp_go exponent 1 (base % modulus) exponent modulus

/-- `mod_inverse(x, modulus)` from con_privacy_token.py: Fermat inversion
`mod_exp(x, modulus - 2, modulus)`.  The Python `%` inside `mod_exp` normalises
a (possibly negative) int base into `[0, modulus)`, which is `Int.emod`
followed by `toNat` here. -/
def mod_inverse (x : ℤ) (modulus : ℕ) : ℕ :=
  mod_exp (x % (modulus : ℤ)).toNat (modulus - 2) modulus

/-- `map_to_base(tag)` from con_privacy_token.py derives a base in `[2, p-2]`
from the first 32 hex chars of a sha3 digest; `hashVal` is that digest value
(the host hash itself lives outside the repository). -/
def map_to_base (hashVal : ℕ) : ℕ := hashVal % (p - 3) + 2

/-- `create_commitment(value, blinding)` from con_privacy_token.py:
`g^(val_hash % (p-1)) * h^(blinding % (p-1)) mod p`.  `valHash` is the sha3
digest value of the string "VAL|" ++ str(value); the generators are passed
explicitly (in the source they are `map_to_base "g"` and `map_to_base "h"`). -/
def create_commitment (g h valHash : ℕ) (blinding : ℤ) : ℕ :=
  mod_exp g (valHash % (p - 1)) p * mod_exp h (blinding % ((p : ℤ) - 1)).toNat p % p

/-- `verify_commitment_addition(old, amount, new)` from con_privacy_token.py. -/
def verify_commitment_addition (old_commitment amount_commitment new_commitment : ℤ) : Bool :=
  new_commitment == old_commitment * amount_commitment % (p : ℤ)

/-- `verify_commitment_subtraction(old, new, amount)` from con_privacy_token.py. -/
def verify_commitment_subtraction (old_commitment new_commitment amount_commitment : ℤ) : Bool :=
  old_commitment == new_commitment * amount_commitment % (p : ℤ)

/-- `ZERO_COMMITMENT = 1`, the multiplicative identity. -/
def ZERO_COMMITMENT : ℕ := 1

theorem mod_exp_go_zero (fuel r b m : ℕ) : mod_exp_go fuel r b 0 m = r := by
  cases fuel <;> simp [mod_exp_go]

theorem mod_exp_go_spec : ∀ fuel e : ℕ, 0 < e → e ≤ fuel → ∀ r b m : ℕ,
    mod_exp_go fuel r b e m = r * b ^ e % m := by
  intro fuel
  induction fuel with
  | zero => intro e he hle; omega
  | succ n ih =>
    intro e he hle r b m
    have hsplit : 2 * (e / 2) + e % 2 = e := Nat.div_add_mod e 2
    have hne : ¬ e = 0 := by omega
    rcases Nat.lt_or_ge e 2 with h2 | h2
    · have he1 : e = 1 := by omega
      subst he1
      simp [mod_exp_go, mod_exp_go_zero, Nat.mul_comm]
    · have hq : 0 < e / 2 := by omega
      have hqle : e / 2 ≤ n := by omega
      rw [mod_exp_go, if_neg hne, ih (e / 2) hq hqle]
      have hbb : (b * b % m) ^ (e / 2) ≡ (b * b) ^ (e / 2) [MOD m] :=
        (Nat.mod_modEq (b * b) m).pow _
      rcases Nat.mod_two_eq_zero_or_one e with hpar | hpar
      · have hee : e = 2 * (e / 2) := by omega
        rw [if_neg (by omega)]
        have hmul : r * (b * b % m) ^ (e / 2) ≡ r * (b * b) ^ (e / 2) [MOD m] :=
          hbb.mul_left r
        calc r * (b * b % m) ^ (e / 2) % m
            = r * (b * b) ^ (e / 2) % m := hmul
          _ = r * b ^ e % m := by
              rw [show r * (b * b) ^ (e / 2) = r * b ^ (2 * (e / 2)) by ring, ← hee]
      · have hee : e = 2 * (e / 2) + 1 := by omega
        rw [if_pos hpar]
        have hmul : r * b % m * (b * b % m) ^ (e / 2) ≡ r * b * (b * b) ^ (e / 2) [MOD m] :=
          (Nat.mod_modEq (r * b) m).mul hbb
        calc r * b % m * (b * b % m) ^ (e / 2) % m
            = r * b * (b * b) ^ (e / 2) % m := hmul
          _ = r * b ^ e % m := by
              rw [show r * b * (b * b) ^ (e / 2) = r * b ^ (2 * (e / 2) + 1) by ring, ← hee]

theorem mod_exp_spec (b e m : ℕ) (hm : 2 ≤ m) : mod_exp b e m = b ^ e % m := by
  rcases Nat.eq_zero_or_pos e with he | he
  · subst he
    simp [mod_exp, Nat.mod_eq_of_lt (by omega : 1 < m)]
  · rw [mod_exp, if_neg (by omega), mod_exp_go_spec e e he le_rfl, one_mul, ← Nat.pow_mod]

end Token

/-!
Primality of `p = 2^255 - 19`, by a Pratt/Lucas certificate chain.  The
Fermat-power side conditions are phrased through `Token.mod_exp` so the kernel
can evaluate them by fast modular exponentiation.
-/

theorem prime_of_lucas_cert (n a : ℕ) (hn : 2 ≤ n) (l : List ℕ)
    (hl : ∀ q ∈ l, Nat.Prime q)
    (hfac : n - 1 = l.prod)
    (ha : Token.mod_exp a (n - 1) n = 1)
    (hd : ∀ q ∈ l, Token.mod_exp a ((n - 1) / q) n ≠ 1) : Nat.Prime n := by
  haveI : Fact (1 < n) := ⟨by omega⟩
  haveI : NeZero n := ⟨by omega⟩
  rw [Token.mod_exp_spec a (n - 1) n hn] at ha
  apply lucas_primality n (a : ZMod n)
  · have h1 : ((a ^ (n - 1) % n : ℕ) : ZMod n) = ((1 : ℕ) : ZMod n) := by rw [ha]
    rw [ZMod.natCast_mod, Nat.cast_pow, Nat.cast_one] at h1
    exact h1
  · intro q hq hdvd
    have hql : q ∈ l := by
      have hdvd' : q ∣ l.prod := hfac ▸ hdvd
      rcases (Nat.Prime.prime hq).dvd_prod_iff.mp hdvd' with ⟨x, hx, hqx⟩
      rwa [(Nat.prime_dvd_prime_iff_eq hq (hl x hx)).mp hqx]
    intro hcontra
    apply hd q hql
    rw [Token.mod_exp_spec a ((n - 1) / q) n hn]
    have h2 : ((a ^ ((n - 1) / q) % n : ℕ) : ZMod n) = (1 : ZMod n) := by
      rw [ZMod.natCast_mod, Nat.cast_pow]
      exact hcontra
    have h3 := congrArg ZMod.val h2
    rwa [ZMod.val_natCast, Nat.mod_mod, ZMod.val_one] at h3

theorem prime_2773320623 : Nat.Prime 2773320623 := by
  apply prime_of_lucas_cert 2773320623 5 (by norm_num) [2, 2437, 569003]
  · intro q hq
    simp only [List.mem_cons, List.not_mem_nil, or_false] at hq
    rcases hq with h | h | h <;> subst h <;> norm_num
  · decide
  · decide
  · intro q hq
    simp only [List.mem_cons, List.not_mem_nil, or_false] at hq
    rcases hq with h | h | h <;> subst h <;> decide

theorem prime_72106336199 : Nat.Prime 72106336199 := by
  apply prime_of_lucas_cert 72106336199 7 (by norm_num) [2, 13, 2773320623]
  · intro q hq
    simp only [List.mem_cons, List.not_mem_nil, or_false] at hq
    rcases hq with h | h | h <;> subst h
    · norm_num
    · norm_num
    · exact prime_2773320623
  · decide
  · decide
  · intro q hq
    simp only [List.mem_cons, List.not_mem_nil, or_false] at hq
    rcases hq with h | h | h <;> subst h <;> decide

theorem prime_31757755568855353 : Nat.Prime 31757755568855353 := by
  apply prime_of_lucas_cert 31757755568855353 10 (by norm_num)
    [2, 2, 2, 3, 31, 107, 223, 4153, 430751]
  · intro q hq
    simp only [List.mem_cons, List.not_mem_nil, or_false] at hq
    rcases hq with h | h | h | h | h | h | h | h | h <;> subst h <;> norm_num
  · decide
  · decide
  · intro q hq
    simp only [List.mem_cons, List.not_mem_nil, or_false] at hq
    rcases hq with h | h | h | h | h | h | h | h | h <;> subst h <;> decide

theorem prime_1919519569386763 : Nat.Prime 1919519569386763 := by
  apply prime_of_lucas_cert 1919519569386763 2 (by norm_num)
    [2, 3, 7, 19, 47, 47, 127, 8574133]
  · intro q hq
    simp only [List.mem_cons, List.not_mem_nil, or_false] at hq
    rcases hq with h | h | h | h | h | h | h | h <;> subst h <;> norm_num
  · decide
  · decide
  · intro q hq
    simp only [List.mem_cons, List.not_mem_nil, or_false] at hq
    rcases hq with h | h | h | h | h | h | h | h <;> subst h <;> decide

theorem prime_75445702479781427272750846543864801 :
    Nat.Prime 75445702479781427272750846543864801 := by
  apply prime_of_lucas_cert 75445702479781427272750846543864801 7 (by norm_num)
    [2, 2, 2, 2, 2, 3, 3, 5, 5, 75707, 72106336199, 1919519569386763]
  · intro q hq
    simp only [List.mem_cons, List.not_mem_nil, or_false] at hq
    rcases hq with h | h | h | h | h | h | h | h | h | h | h | h <;> subst h
    · norm_num
    · norm_num
    · norm_num
    · norm_num
    · norm_num
    · norm_num
    · norm_num
    · norm_num
    · norm_num
    · norm_num
    · exact prime_72106336199
    · exact prime_1919519569386763
  · decide
  · decide
  · intro q hq
    simp only [List.mem_cons, List.not_mem_nil, or_false] at hq
    rcases hq with h | h | h | h | h | h | h | h | h | h | h | h <;> subst h <;> decide

theorem prime_74058212732561358302231226437062788676166966415465897661863160754340907 :
    Nat.Prime 74058212732561358302231226437062788676166966415465897661863160754340907 := by
  apply prime_of_lucas_cert
    74058212732561358302231226437062788676166966415465897661863160754340907 2 (by norm_num)
    [2, 3, 353, 57467, 132049, 1923133, 31757755568855353,
      75445702479781427272750846543864801]
  · intro q hq
    simp only [List.mem_cons, List.not_mem_nil, or_false] at hq
    rcases hq with h | h | h | h | h | h | h | h <;> subst h
    · norm_num
    · norm_num
    · norm_num
    · norm_num
    · norm_num
    · norm_num
    · exact prime_31757755568855353
    · exact prime_75445702479781427272750846543864801
  · decide
  · decide
  · intro q hq
    simp only [List.mem_cons, List.not_mem_nil, or_false] at hq
    rcases hq with h | h | h | h | h | h | h | h <;> subst h <;> decide

theorem p_prime : Nat.Prime Token.p := by
  have hp : Token.p = 57896044618658097711785492504343953926634992332820282019728792003956564819949 := by
    decide
  rw [hp]
  apply prime_of_lucas_cert
    57896044618658097711785492504343953926634992332820282019728792003956564819949 2
    (by norm_num)
    [2, 2, 3, 65147, 74058212732561358302231226437062788676166966415465897661863160754340907]
  · intro q hq
    simp only [List.mem_cons, List.not_mem_nil, or_false] at hq
    rcases hq with h | h | h | h | h <;> subst h
    · norm_num
    · norm_num
    · norm_num
    · norm_num
    · exact prime_74058212732561358302231226437062788676166966415465897661863160754340907
  · decide
  · decide
  · intro q hq
    simp only [List.mem_cons, List.not_mem_nil, or_false] at hq
    rcases hq with h | h | h | h | h <;> subst h <;> decide

namespace Token

theorem p_two_le : 2 ≤ p := by decide

theorem p_five_le : 5 ≤ p := by decide

/-- Fermat's little theorem for the contract modulus, stated on raw naturals. -/
theorem nat_fermat (x : ℕ) (hx : x % p ≠ 0) : x ^ (p - 1) % p = 1 := by
  haveI : Fact (Nat.Prime p) := ⟨p_prime⟩
  have hxz : (x : ZMod p) ≠ 0 := by
    intro h0
    apply hx
    have := congrArg ZMod.val h0
    rwa [ZMod.val_natCast, ZMod.val_zero] at this
  have hfer := ZMod.pow_card_sub_one_eq_one hxz
  have h1 : ((x ^ (p - 1) % p : ℕ) : ZMod p) = ((1 : ℕ) : ZMod p) := by
    rw [ZMod.natCast_mod, Nat.cast_pow, Nat.cast_one, hfer]
  have h2 := congrArg ZMod.val h1
  haveI : Fact (1 < p) := ⟨by have := p_two_le; omega⟩
  rwa [ZMod.val_natCast, Nat.mod_mod, Nat.cast_one, ZMod.val_one] at h2

theorem mod_exp_lt (b e m : ℕ) (hm : 2 ≤ m) : mod_exp b e m < m := by
  rw [mod_exp_spec b e m hm]
  exact Nat.mod_lt _ (by omega)

theorem mod_exp_mod_ne_zero (b e : ℕ) (hb : b % p ≠ 0) : mod_exp b e p ≠ 0 := by
  have hp := p_prime
  rw [mod_exp_spec b e p p_two_le]
  intro h0
  have hdvd : p ∣ b ^ e := Nat.dvd_of_mod_eq_zero h0
  have hdb : p ∣ b := hp.dvd_of_dvd_pow hdvd
  exact hb (Nat.mod_eq_zero_of_dvd hdb)

theorem map_to_base_range (hv : ℕ) : 2 ≤ map_to_base hv ∧ map_to_base hv ≤ p - 2 := by
  have h5 := p_five_le
  have hlt : hv % (p - 3) < p - 3 := Nat.mod_lt _ (by omega)
  unfold map_to_base
  omega

/-- An honestly constructed commitment is a nonzero field element. -/
theorem create_commitment_range (g h vh : ℕ) (blinding : ℤ)
    (hg : g % p ≠ 0) (hh : h % p ≠ 0) :
    1 ≤ create_commitment g h vh blinding ∧ create_commitment g h vh blinding < p := by
  haveI hp := p_prime
  have h2 := p_two_le
  have hlt : create_commitment g h vh blinding < p := Nat.mod_lt _ (by omega)
  refine ⟨?_, hlt⟩
  rw [Nat.one_le_iff_ne_zero]
  have hA := mod_exp_mod_ne_zero g (vh % (p - 1)) hg
  have hB := mod_exp_mod_ne_zero h (blinding % ((p : ℤ) - 1)).toNat hh
  have hAlt := mod_exp_lt g (vh % (p - 1)) p h2
  have hBlt := mod_exp_lt h (blinding % ((p : ℤ) - 1)).toNat p h2
  unfold create_commitment
  intro hmul
  have hdvd : p ∣ mod_exp g (vh % (p - 1)) p * mod_exp h (blinding % ((p : ℤ) - 1)).toNat p :=
    Nat.dvd_of_mod_eq_zero hmul
  rcases (Nat.Prime.dvd_mul hp).mp hdvd with hc | hc
  · exact hA (Nat.eq_zero_of_dvd_of_lt hc hAlt)
  · exact hB (Nat.eq_zero_of_dvd_of_lt hc hBlt)

/-- Fermat inversion: for any integer not divisible by `p`, `mod_inverse`
produces a genuine multiplicative inverse modulo `p`. -/
theorem mod_inverse_mul_emod (x : ℤ) (hx : x % (p : ℤ) ≠ 0) :
    ((mod_inverse x p : ℕ) : ℤ) * x % (p : ℤ) = 1 := by
  have h2 := p_two_le
  have hppos : (0 : ℤ) < (p : ℤ) := by exact_mod_cast Nat.lt_of_lt_of_le (by norm_num) h2
  set x0 : ℕ := (x % (p : ℤ)).toNat with hx0def
  have hx0cast : ((x0 : ℕ) : ℤ) = x % (p : ℤ) :=
    Int.toNat_of_nonneg (Int.emod_nonneg x (by omega))
  have hx0lt : x0 < p := by
    have := Int.emod_lt_of_pos x hppos
    omega
  have hx0ne : x0 ≠ 0 := by
    intro h0
    apply hx
    rw [← hx0cast, h0]
    rfl
  have hx0mod : x0 % p = x0 := Nat.mod_eq_of_lt hx0lt
  have hnat : mod_inverse x p * x0 % p = 1 := by
    show mod_exp x0 (p - 2) p * x0 % p = 1
    rw [mod_exp_spec _ _ _ h2]
    calc x0 ^ (p - 2) % p * x0 % p
        = x0 ^ (p - 2) * x0 % p := by
          conv_rhs => rw [Nat.mul_mod]
          rw [Nat.mul_mod, Nat.mod_mod]
      _ = x0 ^ (p - 1) % p := by
          rw [← pow_succ]
          congr 1
      _ = 1 := nat_fermat x0 (by rw [hx0mod]; exact hx0ne)
  have hmodeq : ((mod_inverse x p : ℕ) : ℤ) * x ≡ ((mod_inverse x p : ℕ) : ℤ) * (x0 : ℤ)
      [ZMOD (p : ℤ)] := by
    apply Int.ModEq.mul_left
    rw [hx0cast]
    exact (Int.emod_emod_of_dvd x dvd_rfl).symm
  calc ((mod_inverse x p : ℕ) : ℤ) * x % (p : ℤ)
      = ((mod_inverse x p : ℕ) : ℤ) * (x0 : ℤ) % (p : ℤ) := hmodeq
    _ = ((mod_inverse x p * x0 % p : ℕ) : ℤ) := by push_cast; ring_nf
    _ = 1 := by rw [hnat]; simp

/-!
Ledger state machine from con_privacy_token.py.  The host key-value stores are
modelled as functions into Option; caller identity and block height are
explicit arguments; events are pure observability and are not modelled beyond
the tx counter they consume.
-/

/-- A stored balance record: `{'commitment', 'last_updated', 'updates'}`. -/
structure BalanceRecord where
  commitment : ℤ
  last_updated : ℕ
  updates : ℕ
deriving DecidableEq

/-- A stored approval record: `{'commitment', 'approved_at'}`. -/
structure ApprovalRecord where
  commitment : ℤ
  approved_at : ℕ
deriving DecidableEq

/-- The contract's persistent state: metadata fields, the three hashes and the
tx counter. -/
structure ContractState where
  name : String
  symbol : String
  operator : String
  total_supply : ℚ
  supply_commitment : ℤ
  balance_commitments : String → Option BalanceRecord
  approvals : String × String → Option ApprovalRecord
  nonces : String → Option ℤ
  next_tx_id : ℤ

/-- Python truthiness fallback `x or d` on a rational. -/
def pyOrRat (x d : ℚ) : ℚ := if x = 0 then d else x

/-- Python truthiness fallback `x or d` on an integer. -/
def pyOrInt (x d : ℤ) : ℤ := if x = 0 then d else x

/-- `seed()`: the construct-time initial state; `caller` is the deployer. -/
def seed (caller : String) : ContractState where
  name := "Confidential Commitment Token"
  symbol := "CCT"
  operator := caller
  total_supply := 0
  supply_commitment := ((ZERO_COMMITMENT : ℕ) : ℤ)
  balance_commitments := fun _ => none
  approvals := fun _ => none
  nonces := fun _ => none
  next_tx_id := 1

/-- `get_nonce(address)`: stored nonce with default 0. -/
def get_nonce (st : ContractState) (address : String) : ℤ :=
  (st.nonces address).getD 0

/-- `bump_nonce(addr, provided)`: replay protection; asserts
`provided == current + 1` and stores the provided nonce. -/
def bump_nonce (st : ContractState) (addr : String) (provided : ℤ) :
    Except String ContractState :=
  let current := (st.nonces addr).getD 0
  if provided = current + 1 then
    let n1 : String → Option ℤ := fun a => if a = addr then some provided else st.nonces a
    .ok { st with nonces := n1 }
  else .error ("Bad nonce")

/-- `confidential_transfer(to, amount_commitment, new_sender_commitment,
new_receiver_commitment, nonce)`. -/
def confidential_transfer (st : ContractState) (caller : String) (block_num : ℕ) (to_addr : String)
    (amount_commitment new_sender_commitment new_receiver_commitment nonce : ℤ) :
    Except String ContractState :=
  if to_addr = caller then .error ("Cannot transfer to self")
  else
    match bump_nonce st caller nonce with
    | .error e => .error e
    | .ok st1 =>
      let sender_data := st1.balance_commitments caller
      let receiver_data := st1.balance_commitments to_addr
      let current_sender_commitment : ℤ :=
        match sender_data with
        | some d => d.commitment
        | none => ((ZERO_COMMITMENT : ℕ) : ℤ)
      let current_receiver_commitment : ℤ :=
        match receiver_data with
        | some d => d.commitment
        | none => ((ZERO_COMMITMENT : ℕ) : ℤ)
      if verify_commitment_subtraction current_sender_commitment new_sender_commitment
          amount_commitment then
        if verify_commitment_addition current_receiver_commitment amount_commitment
            new_receiver_commitment then
          let senderRec : BalanceRecord :=
            { commitment := new_sender_commitment, last_updated := block_num,
              updates := (match sender_data with | none => 0 | some d => d.updates) + 1 }
          let receiverRec : BalanceRecord :=
            { commitment := new_receiver_commitment, last_updated := block_num,
              updates := (match receiver_data with | none => 0 | some d => d.updates) + 1 }
          let bal1 : String → Option BalanceRecord := fun a =>
            if a = caller then some senderRec else st1.balance_commitments a
          let bal2 : String → Option BalanceRecord := fun a =>
            if a = to_addr then some receiverRec else bal1 a
          .ok { st1 with balance_commitments := bal2, next_tx_id := st1.next_tx_id + 1 }
        else .error ("Receiver commitment mismatch")
      else .error ("Sender commitment mismatch")

/-- `confidential_approve(spender, allowance_commitment, nonce)`. -/
def confidential_approve (st : ContractState) (caller : String) (block_num : ℕ)
    (spender : String) (allowance_commitment nonce : ℤ) : Except String ContractState :=
  match bump_nonce st caller nonce with
  | .error e => .error e
  | .ok st1 =>
    let apprRec : ApprovalRecord :=
      { commitment := allowance_commitment, approved_at := block_num }
    let appr1 : String × String → Option ApprovalRecord := fun k =>
      if k = (caller, spender) then some apprRec else st1.approvals k
    .ok { st1 with approvals := appr1, next_tx_id := st1.next_tx_id + 1 }

/-- `confidential_transfer_from(owner, to, amount_commitment,
new_owner_commitment, new_receiver_commitment, new_allowance_commitment,
nonce)`; the caller is the spender. -/
def confidential_transfer_from (st : ContractState) (caller : String) (block_num : ℕ)
    (owner to_addr : String)
    (amount_commitment new_owner_commitment new_receiver_commitment
      new_allowance_commitment nonce : ℤ) : Except String ContractState :=
  if to_addr = owner then .error ("Use confidential_transfer for self to self")
  else
    match bump_nonce st caller nonce with
    | .error e => .error e
    | .ok st1 =>
      match st1.balance_commitments owner with
      | none => .error ("Owner has no commitment")
      | some owner_data =>
        let receiver_data := st1.balance_commitments to_addr
        let current_receiver_commitment : ℤ :=
          match receiver_data with
          | some d => d.commitment
          | none => ((ZERO_COMMITMENT : ℕ) : ℤ)
        match st1.approvals (owner, caller) with
        | none => .error ("No approval for spender")
        | some approval =>
          if verify_commitment_subtraction owner_data.commitment new_owner_commitment
              amount_commitment then
            if verify_commitment_addition current_receiver_commitment amount_commitment
                new_receiver_commitment then
              if verify_commitment_subtraction approval.commitment new_allowance_commitment
                  amount_commitment then
                let ownerRec : BalanceRecord :=
                  { commitment := new_owner_commitment, last_updated := block_num,
                    updates := owner_data.updates + 1 }
                let receiverRec : BalanceRecord :=
                  { commitment := new_receiver_commitment, last_updated := block_num,
                    updates := (match receiver_data with | none => 0 | some d => d.updates) + 1 }
                let apprRec : ApprovalRecord :=
                  { commitment := new_allowance_commitment,
                    approved_at := approval.approved_at }
                let bal1 : String → Option BalanceRecord := fun a =>
                  if a = owner then some ownerRec else st1.balance_commitments a
                let bal2 : String → Option BalanceRecord := fun a =>
                  if a = to_addr then some receiverRec else bal1 a
                let appr1 : String × String → Option ApprovalRecord := fun k =>
                  if k = (owner, caller) then some apprRec else st1.approvals k
                .ok { st1 with balance_commitments := bal2, approvals := appr1,
                               next_tx_id := st1.next_tx_id + 1 }
              else .error ("Allowance commitment mismatch")
            else .error ("Receiver commitment mismatch")
          else .error ("Owner commitment mismatch")

/-- `mint(to, amount, amount_commitment, new_receiver_commitment, nonce)`,
operator-only. -/
def mint (st : ContractState) (caller : String) (block_num : ℕ) (to_addr : String)
    (amount : ℚ) (amount_commitment new_receiver_commitment nonce : ℤ) :
    Except String ContractState :=
  if caller = st.operator then
    match bump_nonce st caller nonce with
    | .error e => .error e
    | .ok st1 =>
      let receiver_data := st1.balance_commitments to_addr
      let current_receiver_commitment : ℤ :=
        match receiver_data with
        | some d => d.commitment
        | none => ((ZERO_COMMITMENT : ℕ) : ℤ)
      if verify_commitment_addition current_receiver_commitment amount_commitment
          new_receiver_commitment then
        let receiverRec : BalanceRecord :=
          { commitment := new_receiver_commitment, last_updated := block_num,
            updates := (match receiver_data with | none => 0 | some d => d.updates) + 1 }
        let bal1 : String → Option BalanceRecord := fun a =>
          if a = to_addr then some receiverRec else st1.balance_commitments a
        .ok { st1 with balance_commitments := bal1,
                       total_supply := pyOrRat st1.total_supply 0 + amount,
                       supply_commitment :=
                         pyOrInt st1.supply_commitment ((ZERO_COMMITMENT : ℕ) : ℤ)
                           * amount_commitment % (p : ℤ),
                       next_tx_id := st1.next_tx_id + 1 }
      else .error ("Receiver commitment mismatch")
  else .error ("Only operator can mint")

/-- `burn(from_address, amount, amount_commitment, new_from_commitment, nonce)`;
self-burn or operator force-burn. -/
def burn (st : ContractState) (caller : String) (block_num : ℕ) (from_address : String)
    (amount : ℚ) (amount_commitment new_from_commitment nonce : ℤ) :
    Except String ContractState :=
  if caller = from_address ∨ caller = st.operator then
    match bump_nonce st caller nonce with
    | .error e => .error e
    | .ok st1 =>
      match st1.balance_commitments from_address with
      | none => .error ("No commitment to burn from")
      | some from_data =>
        if verify_commitment_subtraction from_data.commitment new_from_commitment
            amount_commitment then
          let fromRec : BalanceRecord :=
            { commitment := new_from_commitment, last_updated := block_num,
              updates := from_data.updates + 1 }
          let bal1 : String → Option BalanceRecord := fun a =>
            if a = from_address then some fromRec else st1.balance_commitments a
          let inv : ℤ := ((mod_inverse (amount_commitment % (p : ℤ)) p : ℕ) : ℤ)
          .ok { st1 with balance_commitments := bal1,
                         total_supply := pyOrRat st1.total_supply 0 - amount,
                         supply_commitment :=
                           pyOrInt st1.supply_commitment ((ZERO_COMMITMENT : ℕ) : ℤ)
                             * inv % (p : ℤ),
                         next_tx_id := st1.next_tx_id + 1 }
        else .error ("From commitment mismatch")
  else .error ("Not authorized to burn")

/-- One call to an exported mutating entry point, with its caller baked in. -/
inductive Op where
  | transfer (caller to_addr : String)
      (amount_commitment new_sender_commitment new_receiver_commitment nonce : ℤ)
  | approve (caller spender : String) (allowance_commitment nonce : ℤ)
  | transferFrom (caller owner to_addr : String)
      (amount_commitment new_owner_commitment new_receiver_commitment
        new_allowance_commitment nonce : ℤ)
  | mintOp (caller to_addr : String) (amount : ℚ)
      (amount_commitment new_receiver_commitment nonce : ℤ)
  | burnOp (caller from_address : String) (amount : ℚ)
      (amount_commitment new_from_commitment nonce : ℤ)

/-- Dispatch one operation at a given block height. -/
def step (block_num : ℕ) (st : ContractState) : Op → Except String ContractState
  | .transfer caller to_addr a ns nr n => confidential_transfer st caller block_num to_addr a ns nr n
  | .approve caller spender ac n => confidential_approve st caller block_num spender ac n
  | .transferFrom caller owner to_addr a no nr na n =>
      confidential_transfer_from st caller block_num owner to_addr a no nr na n
  | .mintOp caller to_addr amt a nr n => mint st caller block_num to_addr amt a nr n
  | .burnOp caller fa amt a nf n => burn st caller block_num fa amt a nf n

/-- The host executes every call transactionally (spec sections 5 and 7): a
failed assert rolls the whole call back, so the observable post-state of an
aborted call is the pre-state. -/
def applyOp (block_num : ℕ) (st : ContractState) (op : Op) : ContractState :=
  match step block_num st op with
  | .ok st' => st'
  | .error _ => st

/-- States reachable from a freshly seeded ledger by accepted operations. -/
inductive Reachable : ContractState → Prop
  | seeded (deployer : String) : Reachable (seed deployer)
  | next {st st' : ContractState} (block_num : ℕ) (op : Op) :
      Reachable st → step block_num st op = .ok st' → Reachable st'

end Token

/-! Off-chain transition planner from client_helper.py. -/

namespace Client

/-- `mod_inverse(x)` from client_helper.py with the default modulus `p`; the
source pre-reduces the base by `x % modulus` (Python semantics: `Int.emod`). -/
def mod_inverse (x : ℤ) : ℕ :=
  Token.mod_exp (x % (Token.p : ℤ)).toNat (Token.p - 2) Token.p

/-- `value_to_exponent(value)`: digest of "VAL|" ++ str(value), reduced mod
`p - 1`; `hashVal` is the digest's integer value. -/
def value_to_exponent (hashVal : ℕ) : ℕ := hashVal % (Token.p - 1)

/-- `create_commitment(value, blinding)` from client_helper.py (mirrors the
on-chain definition line for line). -/
def create_commitment (g h hashVal : ℕ) (blinding : ℤ) : ℕ :=
  Token.mod_exp g (value_to_exponent hashVal) Token.p *
    Token.mod_exp h (blinding % ((Token.p : ℤ) - 1)).toNat Token.p % Token.p

/-- Result dict of `build_confidential_transfer`. -/
structure TransferPlan where
  amount_commitment : ℤ
  new_sender_commitment : ℤ
  new_receiver_commitment : ℤ
  nonce : ℤ
deriving DecidableEq

/-- Python None-or-zero substitution by `ZERO_COMMITMENT` for an optional
prior commitment. -/
def substZero (c : Option ℤ) : ℤ :=
  match c with
  | none => ((Token.ZERO_COMMITMENT : ℕ) : ℤ)
  | some v => if v = 0 then ((Token.ZERO_COMMITMENT : ℕ) : ℤ) else v

/-- `build_confidential_transfer(sender_commitment, receiver_commitment,
amount, amount_blinding, next_nonce)`; `amountHash` is the digest value for
`amount`. -/
def build_confidential_transfer (g h : ℕ) (sender_commitment receiver_commitment : Option ℤ)
    (amountHash : ℕ) (amount_blinding : ℤ) (next_nonce : ℤ) : TransferPlan :=
  let amount_commitment : ℕ := create_commitment g h amountHash amount_blinding
  let s : ℤ := substZero sender_commitment
  let r : ℤ := substZero receiver_commitment
  let inv_amt : ℤ := ((mod_inverse (amount_commitment : ℤ) : ℕ) : ℤ)
  { amount_commitment := (amount_commitment : ℤ),
    new_sender_commitment := s * inv_amt % (Token.p : ℤ),
    new_receiver_commitment := r * (amount_commitment : ℤ) % (Token.p : ℤ),
    nonce := next_nonce }

/-- Result dict of `build_confidential_transfer_from`. -/
structure TransferFromPlan where
  amount_commitment : ℤ
  new_owner_commitment : ℤ
  new_receiver_commitment : ℤ
  new_allowance_commitment : ℤ
  nonce : ℤ
deriving DecidableEq

/-- `build_confidential_transfer_from(owner_commitment, receiver_commitment,
allowance_commitment, amount, amount_blinding, next_nonce)`; raises on a
missing owner commitment or allowance. -/
def build_confidential_transfer_from (g h : ℕ)
    (owner_commitment receiver_commitment allowance_commitment : Option ℤ)
    (amountHash : ℕ) (amount_blinding : ℤ) (next_nonce : ℤ) :
    Except String TransferFromPlan :=
  let amount_commitment : ℕ := create_commitment g h amountHash amount_blinding
  if owner_commitment = none ∨ owner_commitment = some 0 then
    .error ("Owner must have an existing commitment")
  else
    let r : ℤ := substZero receiver_commitment
    if allowance_commitment = none ∨ allowance_commitment = some 0 then
      .error ("Spender must have an existing allowance commitment")
    else
      let oc : ℤ := (owner_commitment.getD 0)
      let alc : ℤ := (allowance_commitment.getD 0)
      let inv_amt : ℤ := ((mod_inverse (amount_commitment : ℤ) : ℕ) : ℤ)
      .ok { amount_commitment := (amount_commitment : ℤ),
            new_owner_commitment := oc * inv_amt % (Token.p : ℤ),
            new_receiver_commitment := r * (amount_commitment : ℤ) % (Token.p : ℤ),
            new_allowance_commitment := alc * inv_amt % (Token.p : ℤ),
            nonce := next_nonce }

/-- Result dict of `build_burn`. -/
structure BurnPlan where
  amount : ℚ
  amount_commitment : ℤ
  new_from_commitment : ℤ
  nonce : ℤ
deriving DecidableEq

/-- `build_burn(from_commitment, amount, amount_blinding, next_nonce)`; raises
on a missing prior commitment. -/
def build_burn (g h : ℕ) (from_commitment : Option ℤ) (amount : ℚ)
    (amountHash : ℕ) (amount_blinding : ℤ) (next_nonce : ℤ) : Except String BurnPlan :=
  if from_commitment = none ∨ from_commitment = some 0 then
    .error ("Account must have an existing commitment")
  else
    let amount_commitment : ℕ := create_commitment g h amountHash amount_blinding
    let inv_amt : ℤ := ((mod_inverse (amount_commitment : ℤ) : ℕ) : ℤ)
    .ok { amount := amount,
          amount_commitment := (amount_commitment : ℤ),
          new_from_commitment := (from_commitment.getD 0) * inv_amt % (Token.p : ℤ),
          nonce := next_nonce }

end Client

/-! Shared helper lemmas used across several claims. -/

theorem verify_add_iff (o a n : ℤ) :
    Token.verify_commitment_addition o a n = true ↔ n = o * a % (Token.p : ℤ) := by
  simp [Token.verify_commitment_addition]

theorem verify_sub_iff (o n a : ℤ) :
    Token.verify_commitment_subtraction o n a = true ↔ o = n * a % (Token.p : ℤ) := by
  simp [Token.verify_commitment_subtraction]

theorem map_to_base_mod_ne_zero (hv : ℕ) : Token.map_to_base hv % Token.p ≠ 0 := by
  have h := Token.map_to_base_range hv
  have h5 := Token.p_five_le
  rw [Nat.mod_eq_of_lt (by omega)]
  omega

/-- The client planner's create_commitment coincides with the on-chain one. -/
theorem client_create_commitment_eq (g h vh : ℕ) (blinding : ℤ) :
    Client.create_commitment g h vh blinding = Token.create_commitment g h vh blinding := rfl

/-- The client planner's default-modulus mod_inverse coincides with the
on-chain mod_inverse at modulus p. -/
theorem client_mod_inverse_eq (x : ℤ) : Client.mod_inverse x = Token.mod_inverse x Token.p := rfl

theorem client_create_commitment_range (hg hh vh : ℕ) (blinding : ℤ) :
    1 ≤ Client.create_commitment (Token.map_to_base hg) (Token.map_to_base hh) vh blinding ∧
      Client.create_commitment (Token.map_to_base hg) (Token.map_to_base hh) vh blinding <
        Token.p := by
  rw [client_create_commitment_eq]
  exact Token.create_commitment_range _ _ vh blinding
    (map_to_base_mod_ne_zero hg) (map_to_base_mod_ne_zero hh)

theorem client_create_commitment_emod_ne_zero (hg hh vh : ℕ) (blinding : ℤ) :
    ((Client.create_commitment (Token.map_to_base hg) (Token.map_to_base hh) vh blinding : ℕ) :
      ℤ) % (Token.p : ℤ) ≠ 0 := by
  obtain ⟨h1, h2⟩ := client_create_commitment_range hg hh vh blinding
  rw [Int.emod_eq_of_lt (by exact_mod_cast Nat.zero_le _) (by exact_mod_cast h2)]
  exact_mod_cast Nat.one_le_iff_ne_zero.mp h1

/-! Claim C6. -/

/-- C6: for every field element `c` in `[0, p)` and every amount commitment
`a`, `verify_commitment_addition c a (c*a % p)` returns true and
`verify_commitment_subtraction (c*a % p) c a` returns true. -/
theorem claim_C6 (c a : ℤ) (h0 : 0 ≤ c) (h1 : c < (Token.p : ℤ)) :
    Token.verify_commitment_addition c a (c * a % (Token.p : ℤ)) = true ∧
    Token.verify_commitment_subtraction (c * a % (Token.p : ℤ)) c a = true := by
  constructor
  · rw [verify_add_iff]
  · rw [verify_sub_iff]

/-- Witness for C6 at `c = 2`, `a = 3`. -/
theorem claim_C6_witness :
    ((0 : ℤ) ≤ 2 ∧ (2 : ℤ) < (Token.p : ℤ)) ∧
    (Token.verify_commitment_addition 2 3 (2 * 3 % (Token.p : ℤ)) = true ∧
     Token.verify_commitment_subtraction (2 * 3 % (Token.p : ℤ)) 2 3 = true) :=
  ⟨⟨by decide, by decide⟩, claim_C6 2 3 (by decide) (by decide)⟩

/-! Claim C7. -/

/-- C7: for every integer `x` with `x mod p ≠ 0`,
`mod_inverse(x, p) * x mod p == 1`. -/
theorem claim_C7 (x : ℤ) (hx : x % (Token.p : ℤ) ≠ 0) :
    ((Token.mod_inverse x Token.p : ℕ) : ℤ) * x % (Token.p : ℤ) = 1 :=
  Token.mod_inverse_mul_emod x hx

/-- Witness for C7 at `x = 3`. -/
theorem claim_C7_witness :
    ((3 : ℤ) % (Token.p : ℤ) ≠ 0) ∧
    ((Token.mod_inverse 3 Token.p : ℕ) : ℤ) * 3 % (Token.p : ℤ) = 1 :=
  ⟨by decide, claim_C7 3 (by decide)⟩

/-! Claim C1. -/

/-- C1: if any check of an exported mutating operation fails, the operation
aborts with an error and the observable ledger state (balance records,
approvals, nonces, total_supply, supply_commitment, tx counter) is exactly the
pre-state: the host applies the call transactionally, which `applyOp` models. -/
theorem claim_C1 (block_num : ℕ) (st : Token.ContractState) (op : Token.Op) (e : String)
    (herr : Token.step block_num st op = .error e) :
    Token.applyOp block_num st op = st := by
  unfold Token.applyOp
  rw [herr]

/-- Witness for C1: a self-transfer on the seeded state aborts and leaves the
state unchanged. -/
theorem claim_C1_witness :
    Token.step 1 (Token.seed ("op")) (Token.Op.transfer ("alice") ("alice") 1 1 1 5) =
      .error ("Cannot transfer to self") ∧
    Token.applyOp 1 (Token.seed ("op")) (Token.Op.transfer ("alice") ("alice") 1 1 1 5) =
      Token.seed ("op") :=
  ⟨rfl, claim_C1 1 (Token.seed ("op")) (Token.Op.transfer ("alice") ("alice") 1 1 1 5)
    ("Cannot transfer to self") rfl⟩

/-! Claim C5. -/

/-- C5 (amended): for a caller whose stored nonce is `n` (default 0), the
shared nonce check `bump_nonce` rejects every presented nonce different from
`n + 1` with the nonce error, and accepts exactly `n + 1`, storing it and
leaving every other part of the state unchanged.  (A full mutating call may
fail an earlier guard — self-target or authorization — before the nonce check
runs, in which case that guard's error is reported instead.) -/
theorem claim_C5 (st : Token.ContractState) (addr : String) (provided : ℤ) :
    (provided ≠ (st.nonces addr).getD 0 + 1 →
      Token.bump_nonce st addr provided = .error ("Bad nonce")) ∧
    (provided = (st.nonces addr).getD 0 + 1 →
      ∃ st', Token.bump_nonce st addr provided = .ok st' ∧
        st'.nonces addr = some provided ∧
        (∀ a, a ≠ addr → st'.nonces a = st.nonces a) ∧
        st'.balance_commitments = st.balance_commitments ∧
        st'.approvals = st.approvals ∧
        st'.total_supply = st.total_supply ∧
        st'.supply_commitment = st.supply_commitment) := by
  constructor
  · intro h
    unfold Token.bump_nonce
    rw [if_neg h]
  · intro h
    unfold Token.bump_nonce
    rw [if_pos h]
    refine ⟨_, rfl, by simp, fun a ha => ?_, rfl, rfl, rfl, rfl⟩
    simp [ha]

/-- Counterexample for C5 as frozen: a transfer whose nonce is wrong but whose
target is the caller itself fails with the self-target error, not the nonce
error. -/
theorem claim_C5_counterexample :
    ((5 : ℤ) ≠ ((Token.seed ("op")).nonces ("alice")).getD 0 + 1) ∧
    Token.confidential_transfer (Token.seed ("op")) ("alice") 1 ("alice") 1 1 1 5 =
      .error ("Cannot transfer to self") ∧
    ("Cannot transfer to self" : String) ≠ ("Bad nonce" : String) :=
  ⟨by decide, rfl, by decide⟩

/-- Witness for C5: on the seeded state, nonce 1 is accepted for a fresh
caller and stored. -/
theorem claim_C5_witness :
    ∃ st', Token.bump_nonce (Token.seed ("op")) ("alice") 1 = .ok st' ∧
      st'.nonces ("alice") = some 1 ∧
      (∀ a, a ≠ ("alice") → st'.nonces a = (Token.seed ("op")).nonces a) ∧
      st'.balance_commitments = (Token.seed ("op")).balance_commitments ∧
      st'.approvals = (Token.seed ("op")).approvals ∧
      st'.total_supply = (Token.seed ("op")).total_supply ∧
      st'.supply_commitment = (Token.seed ("op")).supply_commitment :=
  (claim_C5 (Token.seed ("op")) ("alice") 1).2 (by decide)

/-! Claim C10. -/

/-- C10: `mint` makes no validity check on the submitted amount commitment
beyond the multiplicative relation: an operator call with a correct nonce,
`amount_commitment = 0` and `new_receiver_commitment = 0` is accepted for any
receiver in any state, and stores 0 as the receiver's balance commitment. -/
theorem claim_C10 (st : Token.ContractState) (block_num : ℕ) (to_addr : String)
    (amount : ℚ) (nonce : ℤ) (hnonce : nonce = (st.nonces st.operator).getD 0 + 1) :
    ∃ st', Token.mint st st.operator block_num to_addr amount 0 0 nonce = .ok st' ∧
      st'.balance_commitments to_addr =
        some { commitment := 0, last_updated := block_num,
               updates := (match st.balance_commitments to_addr with
                 | none => 0 | some d => d.updates) + 1 } := by
  unfold Token.mint Token.bump_nonce
  rw [if_pos rfl, if_pos hnonce]
  have hver : Token.verify_commitment_addition
      (match st.balance_commitments to_addr with
        | some d => d.commitment
        | none => ((Token.ZERO_COMMITMENT : ℕ) : ℤ)) 0 0 = true := by
    rw [verify_add_iff]
    simp
  simp only [hver, if_true]
  refine ⟨_, rfl, ?_⟩
  simp

/-- Witness for C10: minting commitment 0 to bob on the seeded state. -/
theorem claim_C10_witness :
    ∃ st', Token.mint (Token.seed ("op")) (Token.seed ("op")).operator 1 ("bob") 0 0 0 1 =
        .ok st' ∧
      st'.balance_commitments ("bob") =
        some { commitment := 0, last_updated := 1,
               updates := (match (Token.seed ("op")).balance_commitments ("bob") with
                 | none => 0 | some d => d.updates) + 1 } :=
  claim_C10 (Token.seed ("op")) 1 ("bob") 0 1 (by decide)

/-! Claim C8. -/

theorem bump_nonce_ok (st : Token.ContractState) (addr : String) (provided : ℤ)
    (h : provided = (st.nonces addr).getD 0 + 1) :
    Token.bump_nonce st addr provided =
      .ok { st with nonces := fun a => if a = addr then some provided else st.nonces a } := by
  unfold Token.bump_nonce
  rw [if_pos h]

/-- Success characterization of `mint`: with the operator as caller, a correct
nonce and a passing algebraic check, `mint` returns exactly the state with the
receiver record replaced, the supply fields updated and the tx counter
advanced. -/
theorem mint_ok (st : Token.ContractState) (block_num : ℕ) (to_addr : String)
    (amount : ℚ) (a nr nonce : ℤ)
    (hnonce : nonce = (st.nonces st.operator).getD 0 + 1)
    (hver : Token.verify_commitment_addition
      (match st.balance_commitments to_addr with
        | some d => d.commitment
        | none => ((Token.ZERO_COMMITMENT : ℕ) : ℤ)) a nr = true) :
    Token.mint st st.operator block_num to_addr amount a nr nonce =
      .ok { st with
        balance_commitments := fun x =>
          if x = to_addr then
            some { commitment := nr, last_updated := block_num,
                   updates := (match st.balance_commitments to_addr with
                     | none => 0 | some d => d.updates) + 1 }
          else st.balance_commitments x,
        nonces := fun x => if x = st.operator then some nonce else st.nonces x,
        total_supply := Token.pyOrRat st.total_supply 0 + amount,
        supply_commitment :=
          Token.pyOrInt st.supply_commitment ((Token.ZERO_COMMITMENT : ℕ) : ℤ) * a
            % (Token.p : ℤ),
        next_tx_id := st.next_tx_id + 1 } := by
  unfold Token.mint
  rw [if_pos rfl, bump_nonce_ok st st.operator nonce hnonce]
  simp only []
  rw [if_pos hver]

/-- C8 (amended to amount commitments that are reduced field elements, i.e. in
`[0, p)`): from the freshly seeded state, an operator mint of 10.5 to alice
with nonce 1 at height 1, supplying `amount_commitment = a` and
`new_receiver_commitment = (1 * a) mod p`, succeeds and leaves alice's balance
record commitment equal to `a` with `updates = 1`, `total_supply = 10.5` and
`supply_commitment = a`. -/
theorem claim_C8 (op alice : String) (a : ℤ)
    (h0 : 0 ≤ a) (h1 : a < (Token.p : ℤ)) :
    ∃ st', Token.mint (Token.seed op) op 1 alice (21/2 : ℚ) a (1 * a % (Token.p : ℤ)) 1 =
        .ok st' ∧
      st'.balance_commitments alice =
        some { commitment := a, last_updated := 1, updates := 1 } ∧
      st'.total_supply = 21/2 ∧ st'.supply_commitment = a := by
  have hred : a % (Token.p : ℤ) = a := Int.emod_eq_of_lt h0 h1
  have hver : Token.verify_commitment_addition
      (match (Token.seed op).balance_commitments alice with
        | some d => d.commitment
        | none => ((Token.ZERO_COMMITMENT : ℕ) : ℤ)) a (1 * a % (Token.p : ℤ)) = true := by
    rw [verify_add_iff]
    simp [Token.seed, Token.ZERO_COMMITMENT]
  have hmint := mint_ok (Token.seed op) 1 alice (21/2 : ℚ) a (1 * a % (Token.p : ℤ)) 1
    (by simp [Token.seed]) hver
  refine ⟨_, hmint, ?_, ?_, ?_⟩
  · simp [Token.seed, hred]
  · simp [Token.seed, Token.pyOrRat]
  · simp [Token.seed, Token.pyOrInt, Token.ZERO_COMMITMENT, hred]

/-- Counterexample for C8 as frozen ("any amount_commitment"): with the
unreduced amount commitment `a = p`, the same mint succeeds but stores
`(1 * p) mod p = 0`, which differs from the submitted amount commitment `p`,
both in the balance record and in the supply commitment. -/
theorem claim_C8_counterexample :
    ∃ st', Token.mint (Token.seed ("op")) ("op") 1 ("alice") (21/2 : ℚ)
        ((Token.p : ℕ) : ℤ) (1 * ((Token.p : ℕ) : ℤ) % (Token.p : ℤ)) 1 = .ok st' ∧
      st'.balance_commitments ("alice") =
        some { commitment := 0, last_updated := 1, updates := 1 } ∧
      st'.supply_commitment = 0 ∧
      (0 : ℤ) ≠ ((Token.p : ℕ) : ℤ) := by
  refine ⟨_, rfl, ?_, ?_, ?_⟩
  · decide
  · decide
  · decide

/-- Witness for C8 at `a = 5`. -/
theorem claim_C8_witness :
    ∃ st', Token.mint (Token.seed ("op")) ("op") 1 ("alice") (21/2 : ℚ) 5
        (1 * (5 : ℤ) % (Token.p : ℤ)) 1 = .ok st' ∧
      st'.balance_commitments ("alice") =
        some { commitment := 5, last_updated := 1, updates := 1 } ∧
      st'.total_supply = 21/2 ∧ st'.supply_commitment = 5 :=
  claim_C8 ("op") ("alice") 5 (by decide) (by decide)

/-! Claim C2. -/

/-- Unwinding the planner's sender transition: multiplying the new sender
commitment by the amount commitment modulo p reproduces the prior commitment,
for any nonzero-mod-p amount commitment and reduced prior commitment. -/
theorem unwind_sender (s a : ℤ) (hs0 : 0 ≤ s) (hs1 : s < (Token.p : ℤ))
    (ha : a % (Token.p : ℤ) ≠ 0) :
    s * ((Token.mod_inverse a Token.p : ℕ) : ℤ) % (Token.p : ℤ) * a % (Token.p : ℤ) = s := by
  have h1 : ((Token.mod_inverse a Token.p : ℕ) : ℤ) * a % (Token.p : ℤ) = 1 :=
    Token.mod_inverse_mul_emod a ha
  have hp2 : (2 : ℤ) ≤ (Token.p : ℤ) := by exact_mod_cast Token.p_two_le
  have hmod1 : (1 : ℤ) % (Token.p : ℤ) = 1 := Int.emod_eq_of_lt (by omega) (by omega)
  have he : ((Token.mod_inverse a Token.p : ℕ) : ℤ) * a ≡ 1 [ZMOD (Token.p : ℤ)] := by
    show ((Token.mod_inverse a Token.p : ℕ) : ℤ) * a % (Token.p : ℤ) = 1 % (Token.p : ℤ)
    rw [h1, hmod1]
  have hstep : s * ((Token.mod_inverse a Token.p : ℕ) : ℤ) % (Token.p : ℤ) * a ≡ s * 1
      [ZMOD (Token.p : ℤ)] := by
    calc s * ((Token.mod_inverse a Token.p : ℕ) : ℤ) % (Token.p : ℤ) * a
        ≡ s * ((Token.mod_inverse a Token.p : ℕ) : ℤ) * a [ZMOD (Token.p : ℤ)] :=
          (Int.mod_modEq _ _).mul_right a
      _ = s * (((Token.mod_inverse a Token.p : ℕ) : ℤ) * a) := by ring
      _ ≡ s * 1 [ZMOD (Token.p : ℤ)] := he.mul_left s
  calc s * ((Token.mod_inverse a Token.p : ℕ) : ℤ) % (Token.p : ℤ) * a % (Token.p : ℤ)
      = s * 1 % (Token.p : ℤ) := hstep
    _ = s := by rw [mul_one]; exact Int.emod_eq_of_lt hs0 hs1

/-- C2 (amended: the prior sender and receiver commitments are restricted to
nonzero field elements in `[1, p)`; the planner replaces an input of 0 or None
by ZERO_COMMITMENT = 1, so the frozen claim's check against a raw prior
commitment of 0 fails): the outputs of build_confidential_transfer satisfy
exactly the ledger's checks against the supplied prior commitments. -/
theorem claim_C2 (hg hh : ℕ) (s r : ℤ) (vh : ℕ) (blinding nonce : ℤ)
    (hs1 : 1 ≤ s) (hs2 : s < (Token.p : ℤ)) (hr1 : 1 ≤ r) (hr2 : r < (Token.p : ℤ)) :
    Token.verify_commitment_subtraction s
      (Client.build_confidential_transfer (Token.map_to_base hg) (Token.map_to_base hh)
        (some s) (some r) vh blinding nonce).new_sender_commitment
      (Client.build_confidential_transfer (Token.map_to_base hg) (Token.map_to_base hh)
        (some s) (some r) vh blinding nonce).amount_commitment = true ∧
    Token.verify_commitment_addition r
      (Client.build_confidential_transfer (Token.map_to_base hg) (Token.map_to_base hh)
        (some s) (some r) vh blinding nonce).amount_commitment
      (Client.build_confidential_transfer (Token.map_to_base hg) (Token.map_to_base hh)
        (some s) (some r) vh blinding nonce).new_receiver_commitment = true := by
  have hsne : ¬ s = 0 := by omega
  have hrne : ¬ r = 0 := by omega
  have hane := client_create_commitment_emod_ne_zero hg hh vh blinding
  constructor
  · rw [verify_sub_iff]
    simp only [Client.build_confidential_transfer, Client.substZero, if_neg hsne,
      client_mod_inverse_eq]
    exact (unwind_sender s _ (by omega) hs2 hane).symm
  · rw [verify_add_iff]
    simp only [Client.build_confidential_transfer, Client.substZero, if_neg hrne]

/-- Counterexample for C2 as frozen: the claim quantifies the prior sender
commitment over all of `[0, p)`, but at the explicit input 0 the planner
substitutes ZERO_COMMITMENT = 1 and the ledger subtraction check against the
supplied prior commitment 0 returns false. -/
theorem claim_C2_counterexample :
    Token.verify_commitment_subtraction 0
      (Client.build_confidential_transfer (Token.map_to_base 0) (Token.map_to_base 1)
        (some 0) (some 0) 0 0 1).new_sender_commitment
      (Client.build_confidential_transfer (Token.map_to_base 0) (Token.map_to_base 1)
        (some 0) (some 0) 0 0 1).amount_commitment = false := by decide

/-- Witness for C2 at generators derived from digests 0 and 1, prior
commitments 1 and 1, amount digest 0, blinding 0, nonce 1. -/
theorem claim_C2_witness :
    Token.verify_commitment_subtraction 1
      (Client.build_confidential_transfer (Token.map_to_base 0) (Token.map_to_base 1)
        (some 1) (some 1) 0 0 1).new_sender_commitment
      (Client.build_confidential_transfer (Token.map_to_base 0) (Token.map_to_base 1)
        (some 1) (some 1) 0 0 1).amount_commitment = true ∧
    Token.verify_commitment_addition 1
      (Client.build_confidential_transfer (Token.map_to_base 0) (Token.map_to_base 1)
        (some 1) (some 1) 0 0 1).amount_commitment
      (Client.build_confidential_transfer (Token.map_to_base 0) (Token.map_to_base 1)
        (some 1) (some 1) 0 0 1).new_receiver_commitment = true :=
  claim_C2 0 1 1 1 0 0 1 (by decide) (by decide) (by decide) (by decide)

/-! Claim C9. -/

/-- C9: with generators derived by map_to_base (as the source fixes them),
`create_commitment` never lands on 0 mod p — its value lies in `[1, p-1]` —
and consequently the amount commitment each planner builder hands to
`mod_inverse` (in build_confidential_transfer, build_confidential_transfer_from
and build_burn) is a nonzero field element, satisfying mod_inverse's
nonzero-input precondition. -/
theorem claim_C9 (hg hh vh : ℕ) (blinding : ℤ) :
    (1 ≤ Token.create_commitment (Token.map_to_base hg) (Token.map_to_base hh) vh blinding ∧
      Token.create_commitment (Token.map_to_base hg) (Token.map_to_base hh) vh blinding <
        Token.p) ∧
    (∀ s r : Option ℤ, ∀ nonce : ℤ,
      (Client.build_confidential_transfer (Token.map_to_base hg) (Token.map_to_base hh)
        s r vh blinding nonce).amount_commitment % (Token.p : ℤ) ≠ 0) ∧
    (∀ oc rc ac : Option ℤ, ∀ nonce : ℤ, ∀ plan : Client.TransferFromPlan,
      Client.build_confidential_transfer_from (Token.map_to_base hg) (Token.map_to_base hh)
          oc rc ac vh blinding nonce = .ok plan →
        plan.amount_commitment % (Token.p : ℤ) ≠ 0) ∧
    (∀ fc : Option ℤ, ∀ amount : ℚ, ∀ nonce : ℤ, ∀ plan : Client.BurnPlan,
      Client.build_burn (Token.map_to_base hg) (Token.map_to_base hh) fc amount vh blinding
          nonce = .ok plan →
        plan.amount_commitment % (Token.p : ℤ) ≠ 0) := by
  have hrange := Token.create_commitment_range (Token.map_to_base hg) (Token.map_to_base hh)
    vh blinding (map_to_base_mod_ne_zero hg) (map_to_base_mod_ne_zero hh)
  have hne := client_create_commitment_emod_ne_zero hg hh vh blinding
  refine ⟨hrange, ?_, ?_, ?_⟩
  · intro s r nonce
    simpa only [Client.build_confidential_transfer] using hne
  · intro oc rc ac nonce plan hok
    unfold Client.build_confidential_transfer_from at hok
    split at hok
    · cases hok
    · split at hok
      · cases hok
      · cases hok
        simpa only [] using hne
  · intro fc amount nonce plan hok
    unfold Client.build_burn at hok
    split at hok
    · cases hok
    · cases hok
      simpa only [] using hne

/-- Witness for C9: applying the builder conjuncts at concrete inputs. -/
theorem claim_C9_witness :
    Client.build_burn (Token.map_to_base 0) (Token.map_to_base 1) (some 1) 1 0 0 1 =
      .ok { amount := 1, amount_commitment := 1, new_from_commitment := 1, nonce := 1 } ∧
    ((1 : ℤ) % (Token.p : ℤ) ≠ 0) :=
  ⟨rfl,
    (claim_C9 0 1 0 0).2.2.2 (some 1) 1 1
      { amount := 1, amount_commitment := 1, new_from_commitment := 1, nonce := 1 }
      rfl⟩

/-! Claim C4. -/

theorem bump_nonce_ok_inv (st st1 : Token.ContractState) (addr : String) (provided : ℤ)
    (h : Token.bump_nonce st addr provided = .ok st1) :
    st1.balance_commitments = st.balance_commitments ∧ st1.approvals = st.approvals ∧
    st1.operator = st.operator ∧ st1.total_supply = st.total_supply ∧
    st1.supply_commitment = st.supply_commitment := by
  simp only [Token.bump_nonce] at h
  split at h
  · cases h
    exact ⟨rfl, rfl, rfl, rfl, rfl⟩
  · cases h

/-- C4 (amended: the two balance records are stamped with the current height,
but the approval record for (owner, caller) keeps the approved_at recorded
when the approval was granted — the code deliberately preserves it rather than
re-stamping the transfer height): after every successful
confidential_transfer_from, the owner and receiver balance records are
replaced with the new commitments and last_updated = current height, and the
approval record is replaced with the new allowance commitment with its
original approved_at. -/
theorem claim_C4 (st : Token.ContractState) (caller owner to_addr : String) (block_num : ℕ)
    (a no nr na nonce : ℤ) (st' : Token.ContractState)
    (hok : Token.confidential_transfer_from st caller block_num owner to_addr a no nr na
      nonce = .ok st') :
    ∃ owner_data approval,
      st.balance_commitments owner = some owner_data ∧
      st.approvals (owner, caller) = some approval ∧
      st'.balance_commitments owner =
        some { commitment := no, last_updated := block_num,
               updates := owner_data.updates + 1 } ∧
      st'.balance_commitments to_addr =
        some { commitment := nr, last_updated := block_num,
               updates := (match st.balance_commitments to_addr with
                 | none => 0 | some d => d.updates) + 1 } ∧
      st'.approvals (owner, caller) =
        some { commitment := na, approved_at := approval.approved_at } := by
  simp only [Token.confidential_transfer_from] at hok
  split at hok
  · cases hok
  case isFalse hto =>
    split at hok
    case h_1 e hbump => cases hok
    case h_2 st1 hbump =>
      obtain ⟨hbal, happr, -, -, -⟩ := bump_nonce_ok_inv st st1 caller nonce hbump
      split at hok
      case h_1 howner => cases hok
      case h_2 owner_data howner =>
        split at hok
        case h_1 happrov => cases hok
        case h_2 approval happrov =>
          split at hok
          case isFalse => cases hok
          case isTrue hv1 =>
            split at hok
            case isFalse => cases hok
            case isTrue hv2 =>
              split at hok
              case isFalse => cases hok
              case isTrue hv3 =>
                cases hok
                refine ⟨owner_data, approval, ?_, ?_, ?_, ?_, ?_⟩
                · rw [← hbal]
                  exact howner
                · rw [← happr]
                  exact happrov
                · simp [Ne.symm hto]
                · simp [hbal]
                · simp

/-- A concrete pre-state for exercising confidential_transfer_from: alice
holds a balance record and has approved bob at height 5. -/
def c4State : Token.ContractState where
  name := "Confidential Commitment Token"
  symbol := "CCT"
  operator := "op"
  total_supply := 0
  supply_commitment := 1
  balance_commitments := fun a =>
    if a = "alice" then some { commitment := 1, last_updated := 1, updates := 1 } else none
  approvals := fun k =>
    if k = ("alice", "bob") then some { commitment := 1, approved_at := 5 } else none
  nonces := fun _ => none
  next_tx_id := 1

/-- Counterexample for C4 as frozen: a transfer-from executed at height 9
against an approval granted at height 5 leaves approved_at = 5, not 9. -/
theorem claim_C4_counterexample :
    ∃ st', Token.confidential_transfer_from c4State ("bob") 9 ("alice") ("carol") 1 1 1 1 1 =
        .ok st' ∧
      st'.approvals (("alice"), ("bob")) = some { commitment := 1, approved_at := 5 } ∧
      (5 : ℕ) ≠ 9 :=
  ⟨_, rfl, rfl, by decide⟩

/-- Witness for C4 on the same concrete transfer-from. -/
theorem claim_C4_witness :
    ∃ st', Token.confidential_transfer_from c4State ("bob") 9 ("alice") ("carol") 1 1 1 1 1 =
        .ok st' ∧
      ∃ owner_data approval,
        c4State.balance_commitments ("alice") = some owner_data ∧
        c4State.approvals (("alice"), ("bob")) = some approval ∧
        st'.balance_commitments ("alice") =
          some { commitment := 1, last_updated := 9,
                 updates := owner_data.updates + 1 } ∧
        st'.balance_commitments ("carol") =
          some { commitment := 1, last_updated := 9,
                 updates := (match c4State.balance_commitments ("carol") with
                   | none => 0 | some d => d.updates) + 1 } ∧
        st'.approvals (("alice"), ("bob")) =
          some { commitment := 1, approved_at := approval.approved_at } :=
  ⟨_, rfl, claim_C4 c4State ("bob") ("alice") ("carol") 9 1 1 1 1 1 _ rfl⟩

/-! Claim C3. -/

/-- A reduced field element in `[0, p)`. -/
def inField (x : ℤ) : Prop := 0 ≤ x ∧ x < (Token.p : ℤ)

/-- All integer commitment arguments submitted with an operation are reduced
field elements. -/
def Token.Op.argsReduced : Token.Op → Prop
  | .transfer _ _ a ns nr _ => inField a ∧ inField ns ∧ inField nr
  | .approve _ _ ac _ => inField ac
  | .transferFrom _ _ _ a no nr na _ => inField a ∧ inField no ∧ inField nr ∧ inField na
  | .mintOp _ _ _ a nr _ => inField a ∧ inField nr
  | .burnOp _ _ _ a nf _ => inField a ∧ inField nf

/-- States reachable from a freshly seeded ledger by accepted operations all
of whose commitment arguments are reduced field elements. -/
inductive ReachableReduced : Token.ContractState → Prop
  | seeded (deployer : String) : ReachableReduced (Token.seed deployer)
  | next {st st' : Token.ContractState} (block_num : ℕ) (op : Token.Op) :
      ReachableReduced st → op.argsReduced →
      Token.step block_num st op = .ok st' → ReachableReduced st'

/-- Every stored balance record's commitment is a reduced field element. -/
def balancesInField (st : Token.ContractState) : Prop :=
  ∀ addr rec, st.balance_commitments addr = some rec → inField rec.commitment

theorem step_preserves_inField (block_num : ℕ) (st st' : Token.ContractState)
    (op : Token.Op) (hargs : op.argsReduced) (hok : Token.step block_num st op = .ok st')
    (hst : balancesInField st) : balancesInField st' := by
  cases op with
  | transfer caller to_addr a ns nr nonce =>
    obtain ⟨ha, hns, hnr⟩ := hargs
    simp only [Token.step, Token.confidential_transfer] at hok
    split at hok
    · cases hok
    case isFalse hto =>
      split at hok
      case h_1 e hbump => cases hok
      case h_2 st1 hbump =>
        obtain ⟨hbal, -, -, -, -⟩ := bump_nonce_ok_inv st st1 caller nonce hbump
        split at hok
        case isFalse => cases hok
        case isTrue hv1 =>
          split at hok
          case isFalse => cases hok
          case isTrue hv2 =>
            cases hok
            intro addr rec h
            simp only [] at h
            split at h
            · cases h
              exact hnr
            · split at h
              · cases h
                exact hns
              · rw [hbal] at h
                exact hst addr rec h
  | approve caller spender ac nonce =>
    simp only [Token.step, Token.confidential_approve] at hok
    split at hok
    case h_1 e hbump => cases hok
    case h_2 st1 hbump =>
      obtain ⟨hbal, -, -, -, -⟩ := bump_nonce_ok_inv st st1 caller nonce hbump
      cases hok
      intro addr rec h
      simp only [] at h
      rw [hbal] at h
      exact hst addr rec h
  | transferFrom caller owner to_addr a no nr na nonce =>
    obtain ⟨ha, hno, hnr, hna⟩ := hargs
    simp only [Token.step, Token.confidential_transfer_from] at hok
    split at hok
    · cases hok
    case isFalse hto =>
      split at hok
      case h_1 e hbump => cases hok
      case h_2 st1 hbump =>
        obtain ⟨hbal, -, -, -, -⟩ := bump_nonce_ok_inv st st1 caller nonce hbump
        split at hok
        case h_1 howner => cases hok
        case h_2 owner_data howner =>
          split at hok
          case h_1 happrov => cases hok
          case h_2 approval happrov =>
            split at hok
            case isFalse => cases hok
            case isTrue hv1 =>
              split at hok
              case isFalse => cases hok
              case isTrue hv2 =>
                split at hok
                case isFalse => cases hok
                case isTrue hv3 =>
                  cases hok
                  intro addr rec h
                  simp only [] at h
                  split at h
                  · cases h
                    exact hnr
                  · split at h
                    · cases h
                      exact hno
                    · rw [hbal] at h
                      exact hst addr rec h
  | mintOp caller to_addr amount a nr nonce =>
    obtain ⟨ha, hnr⟩ := hargs
    simp only [Token.step, Token.mint] at hok
    split at hok
    case isFalse => cases hok
    case isTrue hop =>
      split at hok
      case h_1 e hbump => cases hok
      case h_2 st1 hbump =>
        obtain ⟨hbal, -, -, -, -⟩ := bump_nonce_ok_inv st st1 caller nonce hbump
        split at hok
        case isFalse => cases hok
        case isTrue hv =>
          cases hok
          intro addr rec h
          simp only [] at h
          split at h
          · cases h
            exact hnr
          · rw [hbal] at h
            exact hst addr rec h
  | burnOp caller from_address amount a nf nonce =>
    obtain ⟨ha, hnf⟩ := hargs
    simp only [Token.step, Token.burn] at hok
    split at hok
    case isFalse => cases hok
    case isTrue hauth =>
      split at hok
      case h_1 e hbump => cases hok
      case h_2 st1 hbump =>
        obtain ⟨hbal, -, -, -, -⟩ := bump_nonce_ok_inv st st1 caller nonce hbump
        split at hok
        case h_1 hfrom => cases hok
        case h_2 from_data hfrom =>
          split at hok
          case isFalse => cases hok
          case isTrue hv =>
            cases hok
            intro addr rec h
            simp only [] at h
            split at h
            · cases h
              exact hnf
            · rw [hbal] at h
              exact hst addr rec h

/-- C3 (amended: quantified over states reached by accepted operations whose
submitted commitment arguments are themselves reduced, i.e. in `[0, p)`; the
frozen claim fails because subtraction-side checks do not force the stored
new commitment to be reduced): in every such reachable state, the commitment
of every stored balance record is in `[0, p)`. -/
theorem claim_C3 (st : Token.ContractState) (h : ReachableReduced st) :
    balancesInField st := by
  induction h with
  | seeded d =>
    intro addr rec hrec
    simp [Token.seed] at hrec
  | next block_num op hre hargs hstep ih =>
    exact step_preserves_inField block_num _ _ op hargs hstep ih

/-- Counterexample for C3 as frozen: the ledger accepts a transfer whose new
sender commitment is `p + 1` (the subtraction check only constrains
`new * amount mod p`), reaching a state whose stored balance commitment lies
outside `[0, p)`. -/
theorem claim_C3_counterexample :
    ∃ st, Token.Reachable st ∧ ∃ rec, st.balance_commitments ("alice") = some rec ∧
      ¬ (0 ≤ rec.commitment ∧ rec.commitment < (Token.p : ℤ)) := by
  have hstep : ∃ st', Token.step 1 (Token.seed ("op"))
      (Token.Op.transfer ("alice") ("bob") 1 ((Token.p : ℤ) + 1) 1 1) = .ok st' ∧
      st'.balance_commitments ("alice") =
        some { commitment := (Token.p : ℤ) + 1, last_updated := 1, updates := 1 } :=
    ⟨_, rfl, rfl⟩
  obtain ⟨st', h1, h2⟩ := hstep
  refine ⟨st', Token.Reachable.next 1 _ (Token.Reachable.seeded ("op")) h1, _, h2, ?_⟩
  decide

/-- Witness for C3: one reduced-argument mint step, then the invariant read
back on the stored record. -/
theorem claim_C3_witness :
    inField (({ commitment := 1, last_updated := 1, updates := 1 } :
      Token.BalanceRecord).commitment) :=
  claim_C3 _ (ReachableReduced.next 1 (Token.Op.mintOp ("op") ("alice") 1 1 1 1)
      (ReachableReduced.seeded ("op")) ⟨⟨by decide, by decide⟩, ⟨by decide, by decide⟩⟩ rfl)
    ("alice") { commitment := 1, last_updated := 1, updates := 1 } rfl
